import Mathlib

/-!
Verification development for the `rtls-ctl` gateway scanner.

The definitions below are a shallow embedding of `src/main.rs` and
`src/types.rs`: machine integers (`u8`, `u32`) become `Nat` with explicit
bounds, Rust strings become `List Char`, fallible code returns `Except`,
and the network/concurrency layer is modelled by explicit outcome
parameters and step functions.
-/

/-! ## Address range producer (`RangeWrapper` / `RangeWrapperIter`, main.rs 14-44)

`RangeWrapperIter::next` delegates to Rust's `Range<u32>` iterator, which
yields `start, start+1, ...` while `start < end` — the `end` bound is
exclusive.  `rangeWrapperToList` unfolds that iterator into the full list
of yielded addresses. -/

/-- One `next` step of the iterator, iterated with enough fuel
(`stop - start` steps always suffice, see `rangeWrapperToList_eq`). -/
def rangeIterGo : Nat → Nat → Nat → List Nat
  | 0, _, _ => []
  | fuel + 1, start, stop =>
    if start < stop then start :: rangeIterGo fuel (start + 1) stop else []

def rangeWrapperToList (start stop : Nat) : List Nat :=
  rangeIterGo (stop - start) start stop

deriving instance DecidableEq for Except

/-! ## Hardware addresses (`Mac`, types.rs 5-35)

`Mac::from_str` strips `':'` and calls `hex::decode_to_slice` into a
6-byte buffer; `Display` renders `hex::encode_upper` output with a `':'`
pushed after every odd-indexed character and the trailing one popped.
The `hex` crate (v0.4) helpers are embedded faithfully below. -/

/-- Error type of the `hex` crate (`hex::FromHexError`). -/
inductive FromHexError where
  | invalidHexCharacter (c : Char) (index : Nat)
  | oddLength
  | invalidStringLength
deriving DecidableEq

/-- Value of one hex digit, case insensitive (the `hex` crate's `val`,
split into its pure part: `none` marks an invalid character). -/
def hexValCore (c : Char) : Option Nat :=
  if 'A' ≤ c ∧ c ≤ 'F' then some (c.toNat - 'A'.toNat + 10)
  else if 'a' ≤ c ∧ c ≤ 'f' then some (c.toNat - 'a'.toNat + 10)
  else if '0' ≤ c ∧ c ≤ '9' then some (c.toNat - '0'.toNat)
  else none

/-- The `hex` crate's `val(c, idx)`: digit value or `InvalidHexCharacter`. -/
def hexVal (c : Char) (idx : Nat) : Except FromHexError Nat :=
  match hexValCore c with
  | some v => .ok v
  | none => .error (.invalidHexCharacter c idx)

/-- The decoding loop of `hex::decode_to_slice`: each pair of characters
becomes the byte `hi <<< 4 ||| lo`.  The single-character case is
unreachable behind the even-length guard of `decode_to_slice`. -/
def decodeHexLoop : List Char → Nat → Except FromHexError (List Nat)
  | [], _ => .ok []
  | [_], _ => .error .oddLength
  | c1 :: c2 :: rest, i => do
    let hi ← hexVal c1 i
    let lo ← hexVal c2 (i + 1)
    let tail ← decodeHexLoop rest (i + 2)
    .ok ((16 * hi + lo) :: tail)

/-- `hex::decode_to_slice` into a buffer of length `outLen`: rejects odd
input length, then a length mismatch, then decodes pairwise. -/
def decode_to_slice (data : List Char) (outLen : Nat) : Except FromHexError (List Nat) :=
  if data.length % 2 ≠ 0 then .error .oddLength
  else if data.length / 2 ≠ outLen then .error .invalidStringLength
  else decodeHexLoop data 0

/-- `Mac` (types.rs 5-8): a 6-byte hardware address.  The Rust field is
`bytes: [u8; 6]`; here the `length = 6` and `< 256` invariants are carried
as hypotheses where needed. -/
structure Mac where
  bytes : List Nat
deriving DecidableEq

/-- `s.replace(':', "")` from `Mac::from_str` (types.rs 30). -/
def macReplaceColons (s : List Char) : List Char :=
  s.filter (fun c => c ≠ ':')

/-- `Mac::from_str` (types.rs 26-35): strip colons, hex-decode into a
6-byte buffer. -/
def Mac.from_str (s : List Char) : Except FromHexError Mac :=
  (decode_to_slice (macReplaceColons s) 6).map Mac.mk

/-- The `hex` crate's uppercase digit table `b"0123456789ABCDEF"`. -/
def HEX_CHARS_UPPER : List Char :=
  ("0123456789ABCDEF".toList)

/-- Table lookup performed by `hex::encode_upper` for one nibble. -/
def hexDigitUpperChar (n : Nat) : Char :=
  HEX_CHARS_UPPER.getD n ' '

/-- `hex::encode_upper`: each byte becomes its high then low nibble. -/
def hexEncodeUpper (bytes : List Nat) : List Char :=
  bytes.flatMap (fun b => [hexDigitUpperChar (b / 16), hexDigitUpperChar (b % 16)])

/-- Body of the `Display` loop (types.rs 15-20): push the character, and
after every odd-indexed character push a `':'`. -/
def displayLoopBody (p : Nat × Char) : List Char :=
  if p.1 % 2 ≠ 0 then [p.2, ':'] else [p.2]

/-- `Display for Mac` (types.rs 10-25): encode uppercase, interleave
colons by index parity, pop the trailing character. -/
def Mac.display (m : Mac) : List Char :=
  ((hexEncodeUpper m.bytes).enum.flatMap displayLoopBody).dropLast

/-- Spec-side predicate: `c` is a hexadecimal digit (the spec's
"any character is non-hexadecimal" test). -/
def isHexDigitChar (c : Char) : Bool :=
  (decide ('0' ≤ c ∧ c ≤ '9')) || (decide ('a' ≤ c ∧ c ≤ 'f')) || (decide ('A' ≤ c ∧ c ≤ 'F'))

/-- Lowercasing of the six uppercase hex-digit letters, identity
elsewhere: the common-case normalization the spec's case-insensitivity
law quantifies over. -/
def hexCharLower (c : Char) : Char :=
  match c with
  | 'A' => 'a'
  | 'B' => 'b'
  | 'C' => 'c'
  | 'D' => 'd'
  | 'E' => 'e'
  | 'F' => 'f'
  | _ => c

/-- Normal form of a hardware-address string: colons deleted, hex-digit
letters mapped to a common (lower) case. -/
def caseStripped (s : List Char) : List Char :=
  (macReplaceColons s).map hexCharLower

/-! ## JSON values and the two protocol probes (main.rs 151-206)

`serde_json::Value` is embedded with integer numbers (the only numbers
the probes compare against).  `Value::index` with a string key returns
the object's entry or `Null`; `Value::as_str` returns the string payload
or `None`. -/

/-- `serde_json::Value`, with numbers restricted to the integers the
probe logic actually compares. -/
inductive Json where
  | null
  | bool (b : Bool)
  | num (n : Int)
  | str (s : List Char)
  | arr (elems : List Json)
  | obj (entries : List (List Char × Json))

/-- `Value::index` for a string key (`response["key"]`): entry of an
object, `Null` for a missing key or a non-object. -/
def Json.index (j : Json) (key : List Char) : Json :=
  match j with
  | .obj entries =>
    match entries.lookup key with
    | some v => v
    | none => .null
  | _ => .null

/-- `Value::as_str`. -/
def Json.as_str (j : Json) : Option (List Char) :=
  match j with
  | .str s => some s
  | _ => none

/-- `Value::eq` specialized at `json!(200)`-style operands: a value
equals the number `n` exactly when it is a `Number` with that integer
value (see `Json.is_num_iff`). -/
def Json.is_num (j : Json) (n : Int) : Bool :=
  match j with
  | .num m => m == n
  | _ => false

/-- `GatewayType` (types.rs 64-68). -/
inductive GatewayType where
  | G1
  | MG3
deriving DecidableEq

/-- `GatewayDetection` (types.rs 70-75); the address is the `u32` value
of the `Ipv4Addr`. -/
structure GatewayDetection where
  ip : Nat
  gateway : GatewayType
  mac : Mac
deriving DecidableEq

/-- The distinct `anyhow` errors produced by the two probe bodies. -/
inductive ProbeError where
  | macFieldMissing
  | macParse (e : FromHexError)
  | macNotFound
deriving DecidableEq

/-- `filter_addr_g1` (main.rs 151-183) after the HTTP exchange: the
decision function on the parsed JSON response.  Network-level failures
short-circuit before this point and are probe failures as well. -/
def filter_addr_g1 (ip : Nat) (response : Json) : Except ProbeError GatewayDetection :=
  if ((response.index ("header".toList)).index ("code".toList)).is_num 200 then
    match ((((response.index ("body".toList)).index ("gateway".toList)).index
        ("status".toList)).index ("mac".toList)).as_str with
    | none => .error .macFieldMissing
    | some s =>
      match Mac.from_str s with
      | .error e => .error (.macParse e)
      | .ok mac => .ok ⟨ip, .G1, mac⟩
  else .error .macNotFound

/-- `filter_addr_mg3` (main.rs 185-206) after the HTTP exchange: the
decision function on the parsed JSON response. -/
def filter_addr_mg3 (ip : Nat) (response : Json) : Except ProbeError GatewayDetection :=
  match (response.index ("mac".toList)).as_str with
  | some s =>
    match Mac.from_str s with
    | .error e => .error (.macParse e)
    | .ok mac => .ok ⟨ip, .MG3, mac⟩
  | none => .error .macNotFound

/-! ## The probe race (`filter_addr`, main.rs 133-143)

`tokio::select!` races `filter_addr_g1(ip).or_else(|_| pending())`,
`filter_addr_mg3(ip).or_else(|_| pending())` and `sleep(TIMEOUT)`: a
probe branch completes only if its probe succeeds (failure becomes a
never-completing future), the timer branch completes at the deadline,
and the first branch to complete resolves the race (ties broken
nondeterministically by `select!`).  Each probe run is modelled by its
outcome and the time it would deliver that outcome; the race is the
resolution relation over the three branches. -/

/-- `TIMEOUT` (main.rs 47), in milliseconds. -/
def TIMEOUT : Nat := 3000

/-- `CONCURRENCY` (main.rs 46). -/
def CONCURRENCY : Nat := 512

/-- One protocol probe execution: the instant (ms after race start) at
which it finishes, and its result. -/
structure ProbeRun where
  time : Nat
  result : Except ProbeError GatewayDetection
deriving DecidableEq

/-- Completion time of a probe branch wrapped in
`.or_else(|_| pending())`: the probe's own finish time if it succeeds,
never (`none`) if it fails. -/
def branchTime (p : ProbeRun) : Option Nat :=
  match p.result with
  | .ok _ => some p.time
  | .error _ => none

/-- Race-level error: the only failure the `select!` itself produces. -/
inductive RaceError where
  | timedOut
deriving DecidableEq

/-- Resolution of the `select!` over the two suppressed-failure probe
branches and the deadline timer: a branch may win iff it completes and
no other branch completes strictly earlier. -/
inductive RaceResolves (p1 p2 : ProbeRun) (deadline : Nat) :
    Except RaceError GatewayDetection → Prop where
  | probe1 (d : GatewayDetection) :
      p1.result = .ok d →
      p1.time ≤ deadline →
      (∀ t2 ∈ branchTime p2, p1.time ≤ t2) →
      RaceResolves p1 p2 deadline (.ok d)
  | probe2 (d : GatewayDetection) :
      p2.result = .ok d →
      p2.time ≤ deadline →
      (∀ t1 ∈ branchTime p1, p2.time ≤ t1) →
      RaceResolves p1 p2 deadline (.ok d)
  | timer :
      (∀ t1 ∈ branchTime p1, deadline ≤ t1) →
      (∀ t2 ∈ branchTime p2, deadline ≤ t2) →
      RaceResolves p1 p2 deadline (.error .timedOut)

/-! ## The per-address pipeline (`filter_addr`, main.rs 127-144)

`filter_addr` first awaits `filter_addr_tcp`; a TCP failure returns with
`?` before the `select!` is ever entered, so neither protocol probe is
started.  The pipeline is embedded as a function of the two external
outcomes (TCP connect result, race resolution), returning the emitted
probe events alongside the pipeline result. -/

/-- Network-side events a pipeline emits, in order. -/
inductive ProbeEvent where
  | tcpConnect (ip : Nat)
  | probeG1 (ip : Nat)
  | probeMG3 (ip : Nat)
deriving DecidableEq

/-- Pipeline-level error (`anyhow` messages in `filter_addr`). -/
inductive PipelineError where
  | tcpFailed (ip : Nat)
  | raceTimeout
deriving DecidableEq

/-- External outcomes one address's pipeline observes: the TCP connect
result and, if reached, the race resolution. -/
structure AddrEnv where
  tcpResult : Except Unit Unit
  raceResult : Except RaceError GatewayDetection

/-- `filter_addr` (main.rs 127-144): TCP gate, then the probe race. -/
def filter_addr (ip : Nat) (env : AddrEnv) :
    List ProbeEvent × Except PipelineError GatewayDetection :=
  match env.tcpResult with
  | .error _ => ([ProbeEvent.tcpConnect ip], .error (.tcpFailed ip))
  | .ok _ =>
    ([ProbeEvent.tcpConnect ip, ProbeEvent.probeG1 ip, ProbeEvent.probeMG3 ip],
      match env.raceResult with
      | .ok d => .ok d
      | .error .timedOut => .error .raceTimeout)

/-! ## The bounded-concurrency scheduler (main.rs 106-116)

`buffer_unordered(n)` keeps up to `n` futures of the mapped stream
running; each poll drains the futures that are ready and refills from
the (lazy) address stream until `n` are in flight or the stream is
exhausted.  The state and one poll are embedded below; `ready` says
which in-flight addresses complete during a given poll. -/

/-- Scheduler state: addresses not yet admitted, in flight, finished. -/
structure SchedState where
  pending : List Nat
  inFlight : List Nat
  done : List Nat
deriving DecidableEq

/-- Admit pending addresses until `limit` are in flight or none are
pending (the refill half of a `buffer_unordered` poll). -/
def fillUp (limit : Nat) : List Nat → List Nat → List Nat × List Nat
  | [], inFlight => ([], inFlight)
  | a :: rest, inFlight =>
    if inFlight.length < limit then fillUp limit rest (inFlight ++ [a])
    else (a :: rest, inFlight)

/-- One poll of `buffer_unordered(limit)`: finished futures are removed
and collected, then the slack is refilled from the pending stream. -/
def pollStep (limit : Nat) (ready : Nat → Bool) (st : SchedState) : SchedState :=
  ⟨(fillUp limit st.pending (st.inFlight.filter (fun a => !(ready a)))).1,
   (fillUp limit st.pending (st.inFlight.filter (fun a => !(ready a)))).2,
   st.done ++ st.inFlight.filter ready⟩

/-- A whole scan execution is a sequence of polls. -/
def runPolls (limit : Nat) (st : SchedState) : List (Nat → Bool) → SchedState
  | [] => st
  | r :: rs => runPolls limit (pollStep limit r st) rs

/-- Scheduler state at scan start: the whole range pending. -/
def initState (start stop : Nat) : SchedState :=
  ⟨rangeWrapperToList start stop, [], []⟩

/-! ## Result collection (main.rs 106-116)

The stream of pipeline results goes through
`filter_map(|v| async move { ...log...; v.ok() })` and is collected:
errors are logged and dropped, successes are kept. -/

/-- The `filter_map` + `collect` of `main`: keep the `Ok` payloads. -/
def scanCollect (outcomes : List (Except PipelineError GatewayDetection)) :
    List GatewayDetection :=
  outcomes.filterMap Except.toOption

/-- The whole scan over a range, given each address's external
outcomes: map the pipeline over the range, drop the failures. -/
def runScan (env : Nat → AddrEnv) (start stop : Nat) : List GatewayDetection :=
  scanCollect ((rangeWrapperToList start stop).map (fun ip => (filter_addr ip (env ip)).2))

/-! # Theorems -/

/-- `rangeWrapperToList` satisfies the defining equation of the
`Range<u32>` iterator: yield `start` and advance while `start < stop`. -/
theorem rangeWrapperToList_eq (start stop : Nat) :
    rangeWrapperToList start stop =
      if start < stop then start :: rangeWrapperToList (start + 1) stop else [] := by
  unfold rangeWrapperToList
  by_cases h : start < stop
  · have hfuel : stop - start = (stop - (start + 1)) + 1 := by omega
    rw [hfuel]
    simp [rangeIterGo, h]
  · have hfuel : stop - start = 0 := by omega
    rw [hfuel]
    simp [rangeIterGo, h]

theorem rangeIterGo_eq_range' :
    ∀ (fuel start stop : Nat), stop - start ≤ fuel →
      rangeIterGo fuel start stop = List.range' start (stop - start)
  | 0, start, stop, h => by
    have h0 : stop - start = 0 := by omega
    simp [rangeIterGo, h0]
  | fuel + 1, start, stop, h => by
    by_cases hlt : start < stop
    · have ih := rangeIterGo_eq_range' fuel (start + 1) stop (by omega)
      have hd : stop - start = (stop - (start + 1)) + 1 := by omega
      rw [hd, List.range'_succ]
      simp [rangeIterGo, hlt, ih]
    · have h0 : stop - start = 0 := by omega
      simp [rangeIterGo, hlt, h0]

theorem rangeWrapperToList_eq_range' (start stop : Nat) :
    rangeWrapperToList start stop = List.range' start (stop - start) :=
  rangeIterGo_eq_range' _ start stop le_rfl

/-- C1: counterexample to the claim as stated.  At `start = end = 0`
(`start ≤ end` holds) the producer yields no address at all, not the
claimed `end - start + 1 = 1` addresses including both bounds. -/
theorem range_inclusive_counterexample :
    ¬ ((rangeWrapperToList 0 0).length = 0 - 0 + 1) := by decide

/-- C1 (amended): for `start ≤ end`, the producer yields exactly
`end - start` addresses in strictly ascending order; when `start < end`
the first is `start` and the last is `end - 1` — the `end` bound is
excluded, since the iterator is Rust's end-exclusive `Range<u32>`. -/
theorem rangeWrapperToList_spec (start stop : Nat) (h : start ≤ stop) :
    (rangeWrapperToList start stop).length = stop - start ∧
    List.Pairwise (· < ·) (rangeWrapperToList start stop) ∧
    (start < stop →
      (rangeWrapperToList start stop).head? = some start ∧
      (rangeWrapperToList start stop).getLast? = some (stop - 1)) := by
  rw [rangeWrapperToList_eq_range']
  refine ⟨List.length_range' .., List.pairwise_lt_range' start (stop - start) 1 one_pos,
    fun hlt => ⟨?_, ?_⟩⟩
  · rw [List.head?_range', if_neg (by omega)]
  · rw [List.getLast?_range', if_neg (by omega)]
    congr 1
    omega

/-- C1: witness for the amended theorem at `start = 5`, `end = 8`. -/
theorem rangeWrapperToList_spec_witness :
    5 ≤ 8 ∧
    ((rangeWrapperToList 5 8).length = 8 - 5 ∧
      List.Pairwise (· < ·) (rangeWrapperToList 5 8) ∧
      (5 < 8 →
        (rangeWrapperToList 5 8).head? = some 5 ∧
        (rangeWrapperToList 5 8).getLast? = some (8 - 1))) :=
  ⟨by decide, rangeWrapperToList_spec 5 8 (by decide)⟩
example : Mac.from_str ("AA:BB:CC:DD:EE:FF".toList) = .ok ⟨[0xAA, 0xBB, 0xCC, 0xDD, 0xEE, 0xFF]⟩ := by decide
example : Mac.display ⟨[0xAA, 0xBB, 0xCC, 0xDD, 0xEE, 0xFF]⟩ = ("AA:BB:CC:DD:EE:FF".toList) := by decide

theorem hexValCore_hexDigitUpperChar : ∀ n, n < 16 → hexValCore (hexDigitUpperChar n) = some n := by
  decide

theorem hexDigitUpperChar_ne_colon : ∀ n, n < 16 → hexDigitUpperChar n ≠ ':' := by
  decide

theorem macReplaceColons_cons_hexChar (c : Char) (h : c ≠ ':') (rest : List Char) :
    macReplaceColons (c :: rest) = c :: macReplaceColons rest := by
  simp [macReplaceColons, List.filter_cons, h]

theorem macReplaceColons_cons_colon (rest : List Char) :
    macReplaceColons (':' :: rest) = macReplaceColons rest := by
  simp [macReplaceColons, List.filter_cons]

theorem decodeHexLoop_cons (c1 c2 : Char) (hi lo : Nat) (rest : List Char) (i : Nat)
    (h1 : hexValCore c1 = some hi) (h2 : hexValCore c2 = some lo) :
    decodeHexLoop (c1 :: c2 :: rest) i =
      (decodeHexLoop rest (i + 2)).map (fun t => (16 * hi + lo) :: t) := by
  show (do
      let hi ← hexVal c1 i
      let lo ← hexVal c2 (i + 1)
      let tail ← decodeHexLoop rest (i + 2)
      Except.ok ((16 * hi + lo) :: tail)) =
    (decodeHexLoop rest (i + 2)).map (fun t => (16 * hi + lo) :: t)
  rw [show hexVal c1 i = .ok hi by simp [hexVal, h1],
    show hexVal c2 (i + 1) = .ok lo by simp [hexVal, h2]]
  cases decodeHexLoop rest (i + 2) <;> rfl

theorem decode_to_slice_of_length_twelve (data : List Char) (h : data.length = 12) :
    decode_to_slice data 6 = decodeHexLoop data 0 := by
  simp [decode_to_slice, h]

theorem list_length_six {α : Type} :
    ∀ (l : List α), l.length = 6 → ∃ a0 a1 a2 a3 a4 a5, l = [a0, a1, a2, a3, a4, a5]
  | [a0, a1, a2, a3, a4, a5], _ => ⟨a0, a1, a2, a3, a4, a5, rfl⟩
  | [], h => by simp at h
  | [_], h => by simp at h
  | [_, _], h => by simp at h
  | [_, _, _], h => by simp at h
  | [_, _, _, _], h => by simp at h
  | [_, _, _, _, _], h => by simp at h
  | _ :: _ :: _ :: _ :: _ :: _ :: _ :: _, h => by simp at h

/-- C3: hardware-address round-trip.  For every 6-byte value, parsing
the canonical textual rendering (uppercase hex pairs separated by `:`)
succeeds and returns the same value: `Mac::from_str(x.to_string()) == Ok(x)`. -/
theorem mac_display_roundtrip (m : Mac) (hlen : m.bytes.length = 6)
    (hbytes : ∀ b ∈ m.bytes, b < 256) :
    Mac.from_str (Mac.display m) = .ok m := by
  obtain ⟨bs⟩ := m
  obtain ⟨b0, b1, b2, b3, b4, b5, rfl⟩ := list_length_six bs hlen
  have g0 : b0 < 256 := hbytes b0 (by simp)
  have g1 : b1 < 256 := hbytes b1 (by simp)
  have g2 : b2 < 256 := hbytes b2 (by simp)
  have g3 : b3 < 256 := hbytes b3 (by simp)
  have g4 : b4 < 256 := hbytes b4 (by simp)
  have g5 : b5 < 256 := hbytes b5 (by simp)
  have u0 : b0 / 16 < 16 := by omega
  have u1 : b1 / 16 < 16 := by omega
  have u2 : b2 / 16 < 16 := by omega
  have u3 : b3 / 16 < 16 := by omega
  have u4 : b4 / 16 < 16 := by omega
  have u5 : b5 / 16 < 16 := by omega
  have l0 : b0 % 16 < 16 := by omega
  have l1 : b1 % 16 < 16 := by omega
  have l2 : b2 % 16 < 16 := by omega
  have l3 : b3 % 16 < 16 := by omega
  have l4 : b4 % 16 < 16 := by omega
  have l5 : b5 % 16 < 16 := by omega
  have hdisp : Mac.display ⟨[b0, b1, b2, b3, b4, b5]⟩ =
      [hexDigitUpperChar (b0 / 16), hexDigitUpperChar (b0 % 16), ':',
       hexDigitUpperChar (b1 / 16), hexDigitUpperChar (b1 % 16), ':',
       hexDigitUpperChar (b2 / 16), hexDigitUpperChar (b2 % 16), ':',
       hexDigitUpperChar (b3 / 16), hexDigitUpperChar (b3 % 16), ':',
       hexDigitUpperChar (b4 / 16), hexDigitUpperChar (b4 % 16), ':',
       hexDigitUpperChar (b5 / 16), hexDigitUpperChar (b5 % 16)] := by
    simp [Mac.display, hexEncodeUpper, displayLoopBody, List.enum, List.enumFrom, List.flatMap]
  show Mac.from_str (Mac.display ⟨[b0, b1, b2, b3, b4, b5]⟩) = .ok ⟨[b0, b1, b2, b3, b4, b5]⟩
  unfold Mac.from_str
  rw [hdisp]
  rw [macReplaceColons_cons_hexChar _ (hexDigitUpperChar_ne_colon _ u0),
    macReplaceColons_cons_hexChar _ (hexDigitUpperChar_ne_colon _ l0),
    macReplaceColons_cons_colon,
    macReplaceColons_cons_hexChar _ (hexDigitUpperChar_ne_colon _ u1),
    macReplaceColons_cons_hexChar _ (hexDigitUpperChar_ne_colon _ l1),
    macReplaceColons_cons_colon,
    macReplaceColons_cons_hexChar _ (hexDigitUpperChar_ne_colon _ u2),
    macReplaceColons_cons_hexChar _ (hexDigitUpperChar_ne_colon _ l2),
    macReplaceColons_cons_colon,
    macReplaceColons_cons_hexChar _ (hexDigitUpperChar_ne_colon _ u3),
    macReplaceColons_cons_hexChar _ (hexDigitUpperChar_ne_colon _ l3),
    macReplaceColons_cons_colon,
    macReplaceColons_cons_hexChar _ (hexDigitUpperChar_ne_colon _ u4),
    macReplaceColons_cons_hexChar _ (hexDigitUpperChar_ne_colon _ l4),
    macReplaceColons_cons_colon,
    macReplaceColons_cons_hexChar _ (hexDigitUpperChar_ne_colon _ u5),
    macReplaceColons_cons_hexChar _ (hexDigitUpperChar_ne_colon _ l5)]
  rw [show macReplaceColons [] = [] from rfl]
  rw [decode_to_slice_of_length_twelve _ (by rfl)]
  rw [decodeHexLoop_cons _ _ _ _ _ _ (hexValCore_hexDigitUpperChar _ u0)
      (hexValCore_hexDigitUpperChar _ l0),
    decodeHexLoop_cons _ _ _ _ _ _ (hexValCore_hexDigitUpperChar _ u1)
      (hexValCore_hexDigitUpperChar _ l1),
    decodeHexLoop_cons _ _ _ _ _ _ (hexValCore_hexDigitUpperChar _ u2)
      (hexValCore_hexDigitUpperChar _ l2),
    decodeHexLoop_cons _ _ _ _ _ _ (hexValCore_hexDigitUpperChar _ u3)
      (hexValCore_hexDigitUpperChar _ l3),
    decodeHexLoop_cons _ _ _ _ _ _ (hexValCore_hexDigitUpperChar _ u4)
      (hexValCore_hexDigitUpperChar _ l4),
    decodeHexLoop_cons _ _ _ _ _ _ (hexValCore_hexDigitUpperChar _ u5)
      (hexValCore_hexDigitUpperChar _ l5)]
  have e0 : 16 * (b0 / 16) + b0 % 16 = b0 := by omega
  have e1 : 16 * (b1 / 16) + b1 % 16 = b1 := by omega
  have e2 : 16 * (b2 / 16) + b2 % 16 = b2 := by omega
  have e3 : 16 * (b3 / 16) + b3 % 16 = b3 := by omega
  have e4 : 16 * (b4 / 16) + b4 % 16 = b4 := by omega
  have e5 : 16 * (b5 / 16) + b5 % 16 = b5 := by omega
  simp [decodeHexLoop, Except.map, e0, e1, e2, e3, e4, e5]

theorem hexValCore_isSome_iff_isHexDigitChar (c : Char) :
    (hexValCore c).isSome = isHexDigitChar c := by
  unfold hexValCore isHexDigitChar
  split_ifs with h1 h2 h3 <;> simp_all

theorem decodeHexLoop_isOk_iff :
    ∀ (data : List Char) (i : Nat),
      (decodeHexLoop data i).isOk = true ↔
        (data.length % 2 = 0 ∧ ∀ c ∈ data, (hexValCore c).isSome = true)
  | [], i => by simp [decodeHexLoop, Except.isOk, Except.toBool]
  | [c], i => by simp [decodeHexLoop, Except.isOk, Except.toBool]
  | c1 :: c2 :: rest, i => by
    have ih := decodeHexLoop_isOk_iff rest (i + 2)
    have hmod : (c1 :: c2 :: rest).length % 2 = rest.length % 2 := by
      simp [List.length_cons]
      omega
    rw [hmod]
    cases h1 : hexValCore c1 with
    | none =>
      have : decodeHexLoop (c1 :: c2 :: rest) i = .error (.invalidHexCharacter c1 i) := by
        show (do
            let hi ← hexVal c1 i
            let lo ← hexVal c2 (i + 1)
            let tail ← decodeHexLoop rest (i + 2)
            Except.ok ((16 * hi + lo) :: tail)) = _
        rw [show hexVal c1 i = .error (.invalidHexCharacter c1 i) by simp [hexVal, h1]]
        rfl
      simp [this, Except.isOk, Except.toBool, h1]
    | some hi =>
      cases h2 : hexValCore c2 with
      | none =>
        have : decodeHexLoop (c1 :: c2 :: rest) i = .error (.invalidHexCharacter c2 (i + 1)) := by
          show (do
              let hi ← hexVal c1 i
              let lo ← hexVal c2 (i + 1)
              let tail ← decodeHexLoop rest (i + 2)
              Except.ok ((16 * hi + lo) :: tail)) = _
          rw [show hexVal c1 i = .ok hi by simp [hexVal, h1],
            show hexVal c2 (i + 1) = .error (.invalidHexCharacter c2 (i + 1)) by
              simp [hexVal, h2]]
          rfl
        simp [this, Except.isOk, Except.toBool, h2]
      | some lo =>
        rw [decodeHexLoop_cons c1 c2 hi lo rest i h1 h2]
        have hmap : ((decodeHexLoop rest (i + 2)).map
            (fun t => (16 * hi + lo) :: t)).isOk = (decodeHexLoop rest (i + 2)).isOk := by
          cases decodeHexLoop rest (i + 2) <;> rfl
        rw [hmap, ih]
        simp [h1, h2]

/-- C9: `Mac::from_str` is total and succeeds exactly when the input
with every `':'` deleted is a sequence of exactly 12 hexadecimal
digits — equivalently, it fails exactly when the decoded length is not
6 bytes or a non-hexadecimal character remains. -/
theorem mac_from_str_isOk_iff (s : List Char) :
    (Mac.from_str s).isOk = true ↔
      ((macReplaceColons s).length = 12 ∧
        ∀ c ∈ macReplaceColons s, isHexDigitChar c = true) := by
  have hmap : (Mac.from_str s).isOk = (decode_to_slice (macReplaceColons s) 6).isOk := by
    unfold Mac.from_str
    cases decode_to_slice (macReplaceColons s) 6 <;> rfl
  rw [hmap]
  unfold decode_to_slice
  split_ifs with h1 h2
  · constructor
    · intro h
      simp [Except.isOk, Except.toBool] at h
    · intro ⟨hl, _⟩
      omega
  · constructor
    · intro h
      simp [Except.isOk, Except.toBool] at h
    · intro ⟨hl, _⟩
      omega
  · rw [decodeHexLoop_isOk_iff]
    constructor
    · intro ⟨_, hall⟩
      exact ⟨by omega, fun c hc => by rw [← hexValCore_isSome_iff_isHexDigitChar]; exact hall c hc⟩
    · intro ⟨hl, hall⟩
      exact ⟨by omega, fun c hc => by rw [hexValCore_isSome_iff_isHexDigitChar]; exact hall c hc⟩

theorem hexValCore_hexCharLower (c : Char) :
    hexValCore (hexCharLower c) = hexValCore c := by
  unfold hexCharLower
  split <;> rfl

theorem except_map_toOption {ε α β : Type} (f : α → β) (e : Except ε α) :
    (e.map f).toOption = e.toOption.map f := by
  cases e <;> rfl

theorem decodeHexLoop_toOption_congr :
    ∀ (l1 l2 : List Char) (i j : Nat),
      l1.map hexCharLower = l2.map hexCharLower →
      (decodeHexLoop l1 i).toOption = (decodeHexLoop l2 j).toOption
  | [], [], _, _, _ => rfl
  | [], _ :: _, _, _, h => by simp at h
  | _ :: _, [], _, _, h => by simp at h
  | [_], [_], _, _, _ => rfl
  | [_], _ :: _ :: _, _, _, h => by
    have := congrArg List.length h
    simp at this
  | _ :: _ :: _, [_], _, _, h => by
    have := congrArg List.length h
    simp at this
  | c1 :: c2 :: r1, d1 :: d2 :: r2, i, j, h => by
    simp only [List.map_cons, List.cons.injEq] at h
    obtain ⟨h1, h2, hr⟩ := h
    have hc1 : hexValCore c1 = hexValCore d1 := by
      rw [← hexValCore_hexCharLower c1, ← hexValCore_hexCharLower d1, h1]
    have hc2 : hexValCore c2 = hexValCore d2 := by
      rw [← hexValCore_hexCharLower c2, ← hexValCore_hexCharLower d2, h2]
    have ih := decodeHexLoop_toOption_congr r1 r2 (i + 2) (j + 2) hr
    cases e1 : hexValCore c1 with
    | none =>
      have f1 : hexValCore d1 = none := by rw [← hc1]; exact e1
      have q1 : decodeHexLoop (c1 :: c2 :: r1) i = .error (.invalidHexCharacter c1 i) := by
        show (do
            let hi ← hexVal c1 i
            let lo ← hexVal c2 (i + 1)
            let tail ← decodeHexLoop r1 (i + 2)
            Except.ok ((16 * hi + lo) :: tail)) = _
        rw [show hexVal c1 i = .error (.invalidHexCharacter c1 i) by simp [hexVal, e1]]
        rfl
      have q2 : decodeHexLoop (d1 :: d2 :: r2) j = .error (.invalidHexCharacter d1 j) := by
        show (do
            let hi ← hexVal d1 j
            let lo ← hexVal d2 (j + 1)
            let tail ← decodeHexLoop r2 (j + 2)
            Except.ok ((16 * hi + lo) :: tail)) = _
        rw [show hexVal d1 j = .error (.invalidHexCharacter d1 j) by simp [hexVal, f1]]
        rfl
      rw [q1, q2]
      rfl
    | some hi =>
      have f1 : hexValCore d1 = some hi := by rw [← hc1]; exact e1
      cases e2 : hexValCore c2 with
      | none =>
        have f2 : hexValCore d2 = none := by rw [← hc2]; exact e2
        have q1 : decodeHexLoop (c1 :: c2 :: r1) i = .error (.invalidHexCharacter c2 (i + 1)) := by
          show (do
              let hi ← hexVal c1 i
              let lo ← hexVal c2 (i + 1)
              let tail ← decodeHexLoop r1 (i + 2)
              Except.ok ((16 * hi + lo) :: tail)) = _
          rw [show hexVal c1 i = .ok hi by simp [hexVal, e1],
            show hexVal c2 (i + 1) = .error (.invalidHexCharacter c2 (i + 1)) by
              simp [hexVal, e2]]
          rfl
        have q2 : decodeHexLoop (d1 :: d2 :: r2) j = .error (.invalidHexCharacter d2 (j + 1)) := by
          show (do
              let hi ← hexVal d1 j
              let lo ← hexVal d2 (j + 1)
              let tail ← decodeHexLoop r2 (j + 2)
              Except.ok ((16 * hi + lo) :: tail)) = _
          rw [show hexVal d1 j = .ok hi by simp [hexVal, f1],
            show hexVal d2 (j + 1) = .error (.invalidHexCharacter d2 (j + 1)) by
              simp [hexVal, f2]]
          rfl
        rw [q1, q2]
        rfl
      | some lo =>
        have f2 : hexValCore d2 = some lo := by rw [← hc2]; exact e2
        rw [decodeHexLoop_cons c1 c2 hi lo r1 i e1 e2,
          decodeHexLoop_cons d1 d2 hi lo r2 j f1 f2,
          except_map_toOption, except_map_toOption, ih]

/-- C10: parsing is insensitive to hex-digit case and to `':'`
separators.  Any two strings with the same colon-stripped, case-folded
normal form parse to the same outcome: the same `Mac` on success, and
both failures otherwise (`Except.toOption` erases the error payloads,
which may differ in the reported character). -/
theorem mac_from_str_case_insensitive (s1 s2 : List Char)
    (h : caseStripped s1 = caseStripped s2) :
    (Mac.from_str s1).toOption = (Mac.from_str s2).toOption := by
  unfold Mac.from_str
  rw [except_map_toOption, except_map_toOption]
  suffices hs : (decode_to_slice (macReplaceColons s1) 6).toOption =
      (decode_to_slice (macReplaceColons s2) 6).toOption by rw [hs]
  unfold caseStripped at h
  have hlen : (macReplaceColons s1).length = (macReplaceColons s2).length := by
    have := congrArg List.length h
    simpa using this
  unfold decode_to_slice
  rw [hlen]
  split_ifs with h1 h2
  · rfl
  · rfl
  · exact decodeHexLoop_toOption_congr _ _ 0 0 h

/-- C10: witness at `"AA:BB:CC:DD:EE:FF"` versus `"aabbccddeeff"`. -/
theorem mac_from_str_case_insensitive_witness :
    caseStripped ("AA:BB:CC:DD:EE:FF".toList) = caseStripped ("aabbccddeeff".toList) ∧
    (Mac.from_str ("AA:BB:CC:DD:EE:FF".toList)).toOption =
      (Mac.from_str ("aabbccddeeff".toList)).toOption :=
  ⟨by decide, mac_from_str_case_insensitive _ _ (by decide)⟩

theorem Json.is_num_iff (j : Json) (n : Int) : j.is_num n = true ↔ j = Json.num n := by
  cases j <;> simp [Json.is_num]

theorem except_isOk_false_iff {e : Except ProbeError GatewayDetection} :
    e.isOk = false ↔ ∀ d, e ≠ .ok d := by
  cases e <;> simp [Except.isOk, Except.toBool]

theorem filter_addr_g1_ok_iff (ip : Nat) (r : Json) (d : GatewayDetection) :
    filter_addr_g1 ip r = .ok d ↔
      ((r.index ("header".toList)).index ("code".toList) = Json.num 200 ∧
        ∃ s m, ((((r.index ("body".toList)).index ("gateway".toList)).index
            ("status".toList)).index ("mac".toList)).as_str = some s ∧
          Mac.from_str s = .ok m ∧ d = ⟨ip, .G1, m⟩) := by
  have hnum := Json.is_num_iff ((r.index ("header".toList)).index ("code".toList)) 200
  unfold filter_addr_g1
  by_cases hc : ((r.index ("header".toList)).index ("code".toList)).is_num 200 = true
  · rw [if_pos hc]
    replace hc := hnum.mp hc
    split
    next heq =>
      rw [heq]
      constructor
      · intro hd
        simp at hd
      · rintro ⟨-, s2, m2, hs2, -, rfl⟩
        simp at hs2
    next s heq =>
      rw [heq]
      cases hparse : Mac.from_str s with
      | error e =>
        simp only [hparse]
        constructor
        · intro hd
          simp at hd
        · rintro ⟨-, s2, m2, hs2, hm2, rfl⟩
          injection hs2 with hs2
          subst hs2
          rw [hparse] at hm2
          simp at hm2
      | ok mac =>
        simp only [hparse]
        constructor
        · intro hd
          injection hd with hd
          exact ⟨hc, s, mac, rfl, hparse, hd.symm⟩
        · rintro ⟨-, s2, m2, hs2, hm2, rfl⟩
          injection hs2 with hs2
          subst hs2
          rw [hparse] at hm2
          injection hm2 with hm2
          subst hm2
          rfl
  · rw [if_neg hc]
    have hne : ¬ ((r.index ("header".toList)).index ("code".toList) = Json.num 200) :=
      fun heq => hc (hnum.mpr heq)
    constructor
    · intro hd
      simp at hd
    · rintro ⟨hcontra, -⟩
      exact absurd hcontra hne

/-- C4: the Variant A probe (`filter_addr_g1`) succeeds and yields
`{ip, G1, mac}` if and only if the response's `header.code` is the
integer `200` and `body.gateway.status.mac` is a string parsing as a
valid hardware address; in every other case it returns an error. -/
theorem filter_addr_g1_spec (ip : Nat) (r : Json) :
    (∀ d, filter_addr_g1 ip r = .ok d ↔
      ((r.index ("header".toList)).index ("code".toList) = Json.num 200 ∧
        ∃ s m, ((((r.index ("body".toList)).index ("gateway".toList)).index
            ("status".toList)).index ("mac".toList)).as_str = some s ∧
          Mac.from_str s = .ok m ∧ d = ⟨ip, .G1, m⟩)) ∧
    ((filter_addr_g1 ip r).isOk = false ↔
      ¬ ((r.index ("header".toList)).index ("code".toList) = Json.num 200 ∧
        ∃ s m, ((((r.index ("body".toList)).index ("gateway".toList)).index
            ("status".toList)).index ("mac".toList)).as_str = some s ∧
          Mac.from_str s = .ok m)) := by
  refine ⟨filter_addr_g1_ok_iff ip r, ?_⟩
  rw [except_isOk_false_iff]
  constructor
  · intro hall ⟨hcode, s, m, hs, hm⟩
    exact hall ⟨ip, .G1, m⟩
      ((filter_addr_g1_ok_iff ip r ⟨ip, .G1, m⟩).mpr ⟨hcode, s, m, hs, hm, rfl⟩)
  · intro hne d hok
    obtain ⟨hcode, s, m, hs, hm, rfl⟩ := (filter_addr_g1_ok_iff ip r d).mp hok
    exact hne ⟨hcode, s, m, hs, hm⟩

theorem filter_addr_mg3_ok_iff (ip : Nat) (r : Json) (d : GatewayDetection) :
    filter_addr_mg3 ip r = .ok d ↔
      (∃ s m, (r.index ("mac".toList)).as_str = some s ∧
        Mac.from_str s = .ok m ∧ d = ⟨ip, .MG3, m⟩) := by
  unfold filter_addr_mg3
  split
  next s heq =>
    rw [heq]
    cases hparse : Mac.from_str s with
    | error e =>
      simp only [hparse]
      constructor
      · intro hd
        simp at hd
      · rintro ⟨s2, m2, hs2, hm2, rfl⟩
        injection hs2 with hs2
        subst hs2
        rw [hparse] at hm2
        simp at hm2
    | ok mac =>
      simp only [hparse]
      constructor
      · intro hd
        injection hd with hd
        exact ⟨s, mac, rfl, hparse, hd.symm⟩
      · rintro ⟨s2, m2, hs2, hm2, rfl⟩
        injection hs2 with hs2
        subst hs2
        rw [hparse] at hm2
        injection hm2 with hm2
        subst hm2
        rfl
  next heq =>
    rw [heq]
    constructor
    · intro hd
      simp at hd
    · rintro ⟨s2, m2, hs2, -, rfl⟩
      simp at hs2

/-- C5: the Variant B probe (`filter_addr_mg3`) succeeds and yields
`{ip, MG3, mac}` if and only if the response's `mac` field is a string
parsing as a valid hardware address; any other outcome is an error.  In
particular, the response `{"mac": "aabbccddeeff"}` yields an `MG3`
detection whose hardware address renders canonically as
`AA:BB:CC:DD:EE:FF`. -/
theorem filter_addr_mg3_spec :
    (∀ ip r, (∀ d, filter_addr_mg3 ip r = .ok d ↔
      (∃ s m, (r.index ("mac".toList)).as_str = some s ∧
        Mac.from_str s = .ok m ∧ d = ⟨ip, .MG3, m⟩)) ∧
      ((filter_addr_mg3 ip r).isOk = false ↔
        ¬ (∃ s m, (r.index ("mac".toList)).as_str = some s ∧ Mac.from_str s = .ok m))) ∧
    (∀ ip, filter_addr_mg3 ip (Json.obj [(("mac".toList), Json.str ("aabbccddeeff".toList))]) =
      .ok ⟨ip, .MG3, ⟨[0xAA, 0xBB, 0xCC, 0xDD, 0xEE, 0xFF]⟩⟩ ∧
      Mac.display ⟨[0xAA, 0xBB, 0xCC, 0xDD, 0xEE, 0xFF]⟩ = ("AA:BB:CC:DD:EE:FF".toList)) := by
  constructor
  · intro ip r
    refine ⟨filter_addr_mg3_ok_iff ip r, ?_⟩
    rw [except_isOk_false_iff]
    constructor
    · intro hall ⟨s, m, hs, hm⟩
      exact hall ⟨ip, .MG3, m⟩
        ((filter_addr_mg3_ok_iff ip r ⟨ip, .MG3, m⟩).mpr ⟨s, m, hs, hm, rfl⟩)
    · intro hne d hok
      obtain ⟨s, m, hs, hm, rfl⟩ := (filter_addr_mg3_ok_iff ip r d).mp hok
      exact hne ⟨s, m, hs, hm⟩
  · intro ip
    constructor
    · rw [filter_addr_mg3_ok_iff]
      refine ⟨("aabbccddeeff".toList), ⟨[0xAA, 0xBB, 0xCC, 0xDD, 0xEE, 0xFF]⟩, ?_, ?_, rfl⟩
      · decide
      · decide
    · decide

/-- C3: witness at the concrete value `AA:BB:CC:DD:EE:FF`. -/
theorem mac_display_roundtrip_witness :
    (Mac.mk [0xAA, 0xBB, 0xCC, 0xDD, 0xEE, 0xFF]).bytes.length = 6 ∧
    (∀ b ∈ (Mac.mk [0xAA, 0xBB, 0xCC, 0xDD, 0xEE, 0xFF]).bytes, b < 256) ∧
    Mac.from_str (Mac.display ⟨[0xAA, 0xBB, 0xCC, 0xDD, 0xEE, 0xFF]⟩) =
      .ok ⟨[0xAA, 0xBB, 0xCC, 0xDD, 0xEE, 0xFF]⟩ :=
  ⟨by decide, by decide,
    mac_display_roundtrip ⟨[0xAA, 0xBB, 0xCC, 0xDD, 0xEE, 0xFF]⟩ (by decide) (by decide)⟩

theorem branchTime_of_error {p : ProbeRun} {e : ProbeError} (h : p.result = .error e) :
    branchTime p = none := by
  unfold branchTime
  rw [h]

theorem branchTime_of_ok {p : ProbeRun} {d : GatewayDetection} (h : p.result = .ok d) :
    branchTime p = some p.time := by
  unfold branchTime
  rw [h]

/-- C2: failure suppression in the probe race.  A probe that fails never
resolves the race: if the other probe succeeds before the 3-second
deadline the race resolves (uniquely) to that probe's detection, and if
both probes fail the race resolves (uniquely) to the timeout error. -/
theorem race_failure_suppression (p1 p2 : ProbeRun) :
    (∀ e d, p1.result = .error e → p2.result = .ok d → p2.time < TIMEOUT →
      ∀ o, RaceResolves p1 p2 TIMEOUT o ↔ o = .ok d) ∧
    (∀ e d, p2.result = .error e → p1.result = .ok d → p1.time < TIMEOUT →
      ∀ o, RaceResolves p1 p2 TIMEOUT o ↔ o = .ok d) ∧
    (∀ e1 e2, p1.result = .error e1 → p2.result = .error e2 →
      ∀ o, RaceResolves p1 p2 TIMEOUT o ↔ o = .error .timedOut) := by
  refine ⟨?_, ?_, ?_⟩
  · intro e d h1 h2 ht o
    constructor
    · intro hres
      cases hres with
      | probe1 d' hd' hdl hmin =>
        rw [h1] at hd'
        simp at hd'
      | probe2 d' hd' hdl hmin =>
        rw [h2] at hd'
        injection hd' with hd'
        rw [hd']
      | timer hmin1 hmin2 =>
        have := hmin2 p2.time (by rw [branchTime_of_ok h2]; rfl)
        omega
    · rintro rfl
      refine RaceResolves.probe2 d h2 (Nat.le_of_lt ht) ?_
      intro t1 ht1
      rw [branchTime_of_error h1] at ht1
      simp at ht1
  · intro e d h2 h1 ht o
    constructor
    · intro hres
      cases hres with
      | probe2 d' hd' hdl hmin =>
        rw [h2] at hd'
        simp at hd'
      | probe1 d' hd' hdl hmin =>
        rw [h1] at hd'
        injection hd' with hd'
        rw [hd']
      | timer hmin1 hmin2 =>
        have := hmin1 p1.time (by rw [branchTime_of_ok h1]; rfl)
        omega
    · rintro rfl
      refine RaceResolves.probe1 d h1 (Nat.le_of_lt ht) ?_
      intro t2 ht2
      rw [branchTime_of_error h2] at ht2
      simp at ht2
  · intro e1 e2 h1 h2 o
    constructor
    · intro hres
      cases hres with
      | probe1 d' hd' hdl hmin =>
        rw [h1] at hd'
        simp at hd'
      | probe2 d' hd' hdl hmin =>
        rw [h2] at hd'
        simp at hd'
      | timer hmin1 hmin2 => rfl
    · rintro rfl
      refine RaceResolves.timer ?_ ?_
      · intro t1 ht1
        rw [branchTime_of_error h1] at ht1
        simp at ht1
      · intro t2 ht2
        rw [branchTime_of_error h2] at ht2
        simp at ht2

/-- C2: witness.  Probe 1 fails at t=50ms, probe 2 succeeds at t=100ms,
well before the 3000ms deadline: the race resolves to probe 2's
detection. -/
theorem race_failure_suppression_witness :
    (ProbeRun.mk 50 (.error .macNotFound)).result = .error .macNotFound ∧
    (ProbeRun.mk 100 (.ok ⟨1, .MG3, ⟨[0, 0, 0, 0, 0, 0]⟩⟩)).result =
      .ok ⟨1, .MG3, ⟨[0, 0, 0, 0, 0, 0]⟩⟩ ∧
    (ProbeRun.mk 100 (.ok ⟨1, .MG3, ⟨[0, 0, 0, 0, 0, 0]⟩⟩)).time < TIMEOUT ∧
    (RaceResolves (ProbeRun.mk 50 (.error .macNotFound))
        (ProbeRun.mk 100 (.ok ⟨1, .MG3, ⟨[0, 0, 0, 0, 0, 0]⟩⟩)) TIMEOUT
        (.ok ⟨1, .MG3, ⟨[0, 0, 0, 0, 0, 0]⟩⟩) ↔
      (Except.ok ⟨1, .MG3, ⟨[0, 0, 0, 0, 0, 0]⟩⟩ : Except RaceError GatewayDetection) =
        .ok ⟨1, .MG3, ⟨[0, 0, 0, 0, 0, 0]⟩⟩) :=
  ⟨rfl, rfl, by decide,
    (race_failure_suppression (ProbeRun.mk 50 (.error .macNotFound))
        (ProbeRun.mk 100 (.ok ⟨1, .MG3, ⟨[0, 0, 0, 0, 0, 0]⟩⟩))).1
      .macNotFound ⟨1, .MG3, ⟨[0, 0, 0, 0, 0, 0]⟩⟩ rfl rfl (by decide) _⟩

/-- C6: the pipeline invokes the protocol-probe race only after the TCP
reachability check succeeds.  On TCP failure the pipeline returns a
failure immediately and neither protocol probe is started; on TCP
success the TCP event strictly precedes both probe events. -/
theorem filter_addr_tcp_gate (ip : Nat) (env : AddrEnv) :
    (∀ e, env.tcpResult = .error e →
      (filter_addr ip env).2 = .error (.tcpFailed ip) ∧
      ProbeEvent.probeG1 ip ∉ (filter_addr ip env).1 ∧
      ProbeEvent.probeMG3 ip ∉ (filter_addr ip env).1) ∧
    (∀ u, env.tcpResult = .ok u →
      (filter_addr ip env).1 =
        [ProbeEvent.tcpConnect ip, ProbeEvent.probeG1 ip, ProbeEvent.probeMG3 ip]) := by
  unfold filter_addr
  cases henv : env.tcpResult with
  | error e0 =>
    constructor
    · intro e he
      refine ⟨rfl, ?_, ?_⟩ <;> simp
    · intro u hu
      simp at hu
  | ok u0 =>
    constructor
    · intro e he
      simp at he
    · intro u hu
      rfl

/-- C6: witness at a refused TCP connection and at an accepted one. -/
theorem filter_addr_tcp_gate_witness :
    ((AddrEnv.mk (.error ()) (.error .timedOut)).tcpResult = .error () →
      (filter_addr 1 (AddrEnv.mk (.error ()) (.error .timedOut))).2 = .error (.tcpFailed 1) ∧
      ProbeEvent.probeG1 1 ∉ (filter_addr 1 (AddrEnv.mk (.error ()) (.error .timedOut))).1 ∧
      ProbeEvent.probeMG3 1 ∉ (filter_addr 1 (AddrEnv.mk (.error ()) (.error .timedOut))).1) ∧
    ((AddrEnv.mk (.ok ()) (.error .timedOut)).tcpResult = .ok () →
      (filter_addr 1 (AddrEnv.mk (.ok ()) (.error .timedOut))).1 =
        [ProbeEvent.tcpConnect 1, ProbeEvent.probeG1 1, ProbeEvent.probeMG3 1]) :=
  ⟨(filter_addr_tcp_gate 1 (AddrEnv.mk (.error ()) (.error .timedOut))).1 (),
   (filter_addr_tcp_gate 1 (AddrEnv.mk (.ok ()) (.error .timedOut))).2 ()⟩

theorem fillUp_length_le (limit : Nat) :
    ∀ (p fl : List Nat), fl.length ≤ limit → ((fillUp limit p fl).2).length ≤ limit
  | [], _, h => h
  | a :: rest, fl, h => by
    unfold fillUp
    by_cases hlt : fl.length < limit
    · rw [if_pos hlt]
      exact fillUp_length_le limit rest (fl ++ [a]) (by simp; omega)
    · rw [if_neg hlt]
      exact h

theorem fillUp_pending_full (limit : Nat) :
    ∀ (p fl : List Nat), fl.length ≤ limit →
      (fillUp limit p fl).1 ≠ [] → ((fillUp limit p fl).2).length = limit
  | [], _, _, hne => absurd rfl hne
  | a :: rest, fl, h, hne => by
    unfold fillUp at hne ⊢
    by_cases hlt : fl.length < limit
    · rw [if_pos hlt] at hne ⊢
      exact fillUp_pending_full limit rest (fl ++ [a]) (by simp; omega) hne
    · rw [if_neg hlt]
      simp only
      omega

theorem pollStep_inFlight_le (limit : Nat) (ready : Nat → Bool) (st : SchedState)
    (h : st.inFlight.length ≤ limit) : (pollStep limit ready st).inFlight.length ≤ limit :=
  fillUp_length_le limit st.pending _
    (le_trans (List.length_filter_le _ _) h)

theorem runPolls_inFlight_le (limit : Nat) :
    ∀ (polls : List (Nat → Bool)) (st : SchedState), st.inFlight.length ≤ limit →
      (runPolls limit st polls).inFlight.length ≤ limit
  | [], _, h => h
  | r :: rs, st, h => runPolls_inFlight_le limit rs _ (pollStep_inFlight_le limit r st h)

/-- C7: the scheduler keeps at most `N` pipelines in flight at any
instant, for any poll schedule over any range; and after any poll of a
within-bound state, either no address is pending or the in-flight set is
full again — a completed pipeline's slot is refilled by the next pending
address within the same poll. -/
theorem scheduler_concurrency_bound (N : Nat) (hN : 1 ≤ N) (start stop : Nat)
    (polls : List (Nat → Bool)) :
    (runPolls N (initState start stop) polls).inFlight.length ≤ N ∧
    (∀ ready st, st.inFlight.length ≤ N →
      (pollStep N ready st).inFlight.length ≤ N ∧
      ((pollStep N ready st).pending ≠ [] → (pollStep N ready st).inFlight.length = N)) := by
  refine ⟨runPolls_inFlight_le N polls _ (by simp [initState]),
    fun ready st h => ⟨pollStep_inFlight_le N ready st h, fun hp => ?_⟩⟩
  exact fillUp_pending_full N st.pending _
    (le_trans (List.length_filter_le _ _) h) hp

/-- C7: witness with `N = 2` over the range `0..5` and two polls. -/
theorem scheduler_concurrency_bound_witness :
    1 ≤ 2 ∧
    ((runPolls 2 (initState 0 5) [fun _ => false, fun _ => true]).inFlight.length ≤ 2 ∧
      (∀ ready st, st.inFlight.length ≤ 2 →
        (pollStep 2 ready st).inFlight.length ≤ 2 ∧
        ((pollStep 2 ready st).pending ≠ [] → (pollStep 2 ready st).inFlight.length = 2))) :=
  ⟨by decide, scheduler_concurrency_bound 2 (by decide) 0 5 [fun _ => false, fun _ => true]⟩

theorem except_toOption_eq_some {ε α : Type} (e : Except ε α) (a : α) :
    e.toOption = some a ↔ e = .ok a := by
  cases e <;> simp [Except.toOption]

/-- C8: every per-address error is absorbed at the pipeline boundary:
the collected scan output contains exactly the successful detections
(an outcome appears iff some address's pipeline returned it as `Ok`),
and a scan in which every address fails completes with the empty
collection rather than an error. -/
theorem scan_error_containment (env : Nat → AddrEnv) (start stop : Nat) :
    (∀ (outs : List (Except PipelineError GatewayDetection)) (d : GatewayDetection),
      d ∈ scanCollect outs ↔ Except.ok d ∈ outs) ∧
    (∀ d, d ∈ runScan env start stop ↔
      ∃ ip ∈ rangeWrapperToList start stop, (filter_addr ip (env ip)).2 = .ok d) ∧
    ((∀ ip ∈ rangeWrapperToList start stop, ((filter_addr ip (env ip)).2).isOk = false) →
      runScan env start stop = []) := by
  have hmem : ∀ (outs : List (Except PipelineError GatewayDetection)) (d : GatewayDetection),
      d ∈ scanCollect outs ↔ Except.ok d ∈ outs := by
    intro outs d
    unfold scanCollect
    rw [List.mem_filterMap]
    constructor
    · rintro ⟨e, he, hsome⟩
      rw [(except_toOption_eq_some e d).mp hsome] at he
      exact he
    · intro h
      exact ⟨.ok d, h, rfl⟩
  refine ⟨hmem, ?_, ?_⟩
  · intro d
    unfold runScan
    rw [hmem, List.mem_map]
  · intro hall
    unfold runScan scanCollect
    rw [List.filterMap_eq_nil_iff]
    intro e he
    rw [List.mem_map] at he
    obtain ⟨ip, hip, rfl⟩ := he
    have := hall ip hip
    cases hres : (filter_addr ip (env ip)).2 with
    | ok d =>
      rw [hres] at this
      simp [Except.isOk, Except.toBool] at this
    | error e0 => rfl

/-- C8: witness: a three-address scan in which every TCP connect fails
collects the empty detection list. -/
theorem scan_error_containment_witness :
    (∀ ip ∈ rangeWrapperToList 0 3,
      ((filter_addr ip ((fun _ => AddrEnv.mk (.error ()) (.error .timedOut)) ip)).2).isOk =
        false) ∧
    runScan (fun _ => AddrEnv.mk (.error ()) (.error .timedOut)) 0 3 = [] :=
  ⟨by decide,
    (scan_error_containment (fun _ => AddrEnv.mk (.error ()) (.error .timedOut)) 0 3).2.2
      (by decide)⟩
